import Mathlib

/-!
Shallow embedding of src/reindex_all.py: a batch reindex driver that sweeps
knowledge bases, standalone files, and folder-referenced files, deleting and
rebuilding vector-store collections through an external pipeline.

External collaborators (catalog, vector store, indexing pipeline) are modelled
as an environment of Except-valued oracles; every external call the driver
makes is recorded in an explicit event trace so that claims about which calls
happen (delete_collection, process_file, ...) can be stated and proved.
-/

namespace ReindexAll

/-- Record for a file as fetched from the catalog (Files model).
The data field is a dict in Python; an absent or falsy (empty) dict is
modelled as none, and the content entry of the dict as an Option String
(none when the key is missing). -/
structure FileData where
  content : Option String
deriving DecidableEq, Repr

structure FileRec where
  id : String
  filename : String
  data : Option FileData
deriving DecidableEq, Repr

structure UserRec where
  id : String
  email : String
deriving DecidableEq, Repr

/-- One entry of a folder's data["files"] list: a dict with optional "type"
and "id" keys (file_ref.get returns None when a key is missing). -/
structure FolderRef where
  type : Option String
  id : Option String
deriving DecidableEq, Repr

/-- Folder data dict: the "files" key is none when absent
("files" not in folder.data). -/
structure FolderData where
  files : Option (List FolderRef)
deriving DecidableEq, Repr

structure FolderRec where
  name : String
  data : Option FolderData
deriving DecidableEq, Repr

/-- Knowledge-base data: data is none when knowledge_base.data is falsy or
not a dict (the code treats both the same at line 58); file_ids models
data.get("file_ids", []). -/
structure KBData where
  file_ids : List String
deriving DecidableEq, Repr

structure KnowledgeBase where
  id : String
  name : String
  data : Option KBData
deriving DecidableEq, Repr

/-- One external side-effecting call made by the driver. -/
inductive Event where
  | hasCollectionCall (name : String)
  | queryCall (name : String) (fileId : String)
  | deleteCollectionCall (name : String)
  | processFileCall (fileId : String) (collectionName : Option String)
  | deleteKnowledgeCall (kbId : String)
deriving DecidableEq, Repr

/-- Failure record accumulated by a sweep; standalone-file failures carry the
filename, knowledge-base and folder failures do not. -/
structure FailureRecord where
  file_id : String
  filename : Option String
  error : String
deriving DecidableEq, Repr

/-- The external world: every collaborator call the script makes, as an
Except-valued oracle (error = the Python call raised). query returns the
truth value of `result and len(result.ids[0]) > 0`; an IndexError inside
that expression is folded into the error case, which the code catches in
the same try block. -/
structure Env where
  superAdmin : Option UserRec
  appInitialized : Bool
  getKnowledgeBases : Except String (List KnowledgeBase)
  getFiles : Except String (List FileRec)
  getUsers : Except String (List UserRec)
  getFoldersByUser : String → Except String (List FolderRec)
  getFilesByIds : List String → Except String (List FileRec)
  getFileById : String → Except String (Option FileRec)
  hasCollection : String → Except String Bool
  query : String → String → Except String Bool
  deleteCollection : String → Except String Unit
  processFile : String → Option String → Except String Unit
  deleteKnowledgeById : String → Except String Unit

/-- Truthiness of `file.data and file.data.get("content")`
(reindex_all.py line 141 and line 262). -/
def hasContent (f : FileRec) : Bool :=
  match f.data with
  | none => false
  | some d =>
    match d.content with
    | none => false
    | some s => !(s == "")

/-- The already-indexed check (reindex_all.py lines 151-165 and 268-278):
has_collection then query inside one try whose handler is pass, so any
exception is swallowed and the file is treated as not indexed.
Returns (should-skip, events emitted). -/
def alreadyIndexedCheck (env : Env) (fc fid : String) : Bool × List Event :=
  match env.hasCollection fc with
  | .error _ => (false, [.hasCollectionCall fc])
  | .ok false => (false, [.hasCollectionCall fc])
  | .ok true =>
    match env.query fc fid with
    | .error _ => (false, [.hasCollectionCall fc, .queryCall fc fid])
    | .ok b => (b, [.hasCollectionCall fc, .queryCall fc fid])

/-- Best-effort stale-collection delete (reindex_all.py lines 171-175 and
283-287): has_collection then delete_collection inside one try whose handler
is pass. Returns the events emitted. -/
def staleDelete (env : Env) (fc : String) : List Event :=
  match env.hasCollection fc with
  | .error _ => [.hasCollectionCall fc]
  | .ok false => [.hasCollectionCall fc]
  | .ok true => [.hasCollectionCall fc, .deleteCollectionCall fc]

/-- Outcome of the standalone sweep's per-file loop body. -/
inductive SFOutcome where
  | skippedNoContent
  | skippedIndexed
  | succeeded
  | failed (err : String)
deriving DecidableEq, Repr

/-- Body of the standalone sweep's per-file loop (reindex_all.py lines
139-183): skip contentless files, skip already-indexed files, otherwise
best-effort delete of the stale collection then process_file with
collection_name None. An error from process_file reaches the loop's outer
except (line 185). -/
def standaloneFileStep (env : Env) (file : FileRec) : SFOutcome × List Event :=
  if hasContent file = false then (.skippedNoContent, [])
  else
    let fc := "file-" ++ file.id
    let check := alreadyIndexedCheck env fc file.id
    if check.1 then (.skippedIndexed, check.2)
    else
      let evs2 := staleDelete env fc
      match env.processFile file.id none with
      | .ok _ => (.succeeded, check.2 ++ evs2 ++ [.processFileCall file.id none])
      | .error e => (.failed e, check.2 ++ evs2 ++ [.processFileCall file.id none])

structure StandaloneState where
  success_count : Nat
  failed_files : List FailureRecord
  skipped_count : Nat
  trace : List Event
deriving DecidableEq, Repr

/-- How the standalone sweep's loop updates its counters from one file's
outcome: skips bump skipped_count, success bumps success_count, a caught
exception appends a failure record with id, filename and error text
(reindex_all.py lines 142, 159, 183, 187-191). -/
def standaloneStepState (env : Env) (st : StandaloneState) (f : FileRec) :
    StandaloneState :=
  match standaloneFileStep env f with
  | (.skippedNoContent, evs) =>
    { st with skipped_count := st.skipped_count + 1, trace := st.trace ++ evs }
  | (.skippedIndexed, evs) =>
    { st with skipped_count := st.skipped_count + 1, trace := st.trace ++ evs }
  | (.succeeded, evs) =>
    { st with success_count := st.success_count + 1, trace := st.trace ++ evs }
  | (.failed e, evs) =>
    { st with
      failed_files := st.failed_files ++ [⟨f.id, some f.filename, e⟩],
      trace := st.trace ++ evs }

def standaloneLoop (env : Env) : List FileRec → StandaloneState → StandaloneState
  | [], st => st
  | f :: rest, st => standaloneLoop env rest (standaloneStepState env st f)

def initStandaloneState : StandaloneState := ⟨0, [], 0, []⟩

/-- reindex_standalone_files (reindex_all.py lines 110-195): if no admin user
resolves, return (0, []) at once; Files.get_files() at line 130 is outside
any try, so a catalog error there propagates out of the sweep. -/
def reindex_standalone_files (env : Env) : Except String StandaloneState :=
  match env.superAdmin with
  | none => .ok initStandaloneState
  | some _ =>
    match env.getFiles with
    | .error e => .error e
    | .ok files => .ok (standaloneLoop env files initStandaloneState)

/-- Per-knowledge-base member-file loop (reindex_all.py lines 82-94): each
process_file call is tried individually; an error appends {file_id, error}
to the local failed_files list and the loop continues. Returns the failure
list and the events emitted. -/
def kbMemberLoop (env : Env) (kbId : String) :
    List FileRec → List FailureRecord × List Event
  | [] => ([], [])
  | f :: rest =>
    let tail := kbMemberLoop env kbId rest
    match env.processFile f.id (some kbId) with
    | .ok _ => (tail.1, .processFileCall f.id (some kbId) :: tail.2)
    | .error e =>
      (⟨f.id, none, e⟩ :: tail.1, .processFileCall f.id (some kbId) :: tail.2)

structure KBState where
  success_count : Nat
  deleted_knowledge_bases : List String
  trace : List Event
deriving DecidableEq, Repr

/-- Tally after the member loop of one knowledge base: success_count bumps
only when no member file failed (reindex_all.py lines 96-100). -/
def kbRunMembers (env : Env) (st : KBState) (kbId : String)
    (files : List FileRec) (pre : List Event) : KBState :=
  let run := kbMemberLoop env kbId files
  { st with
    success_count := st.success_count + (if run.1.isEmpty then 1 else 0),
    trace := st.trace ++ pre ++ run.2 }

/-- Body of the knowledge-base sweep's per-KB loop (reindex_all.py lines
57-104): invalid data means delete the KB (recording it only when the delete
succeeds); get_files_by_ids errors are caught by the outer except (line 102)
and skip the KB; has_collection or delete_collection errors abort the KB
iteration (lines 74-80); otherwise every member file is submitted. -/
def kbStep (env : Env) (st : KBState) (kb : KnowledgeBase) : KBState :=
  match kb.data with
  | none =>
    match env.deleteKnowledgeById kb.id with
    | .ok _ =>
      { st with
        deleted_knowledge_bases := st.deleted_knowledge_bases ++ [kb.id],
        trace := st.trace ++ [.deleteKnowledgeCall kb.id] }
    | .error _ => { st with trace := st.trace ++ [.deleteKnowledgeCall kb.id] }
  | some d =>
    match env.getFilesByIds d.file_ids with
    | .error _ => st
    | .ok files =>
      match env.hasCollection kb.id with
      | .error _ => { st with trace := st.trace ++ [.hasCollectionCall kb.id] }
      | .ok false => kbRunMembers env st kb.id files [.hasCollectionCall kb.id]
      | .ok true =>
        match env.deleteCollection kb.id with
        | .error _ =>
          { st with
            trace := st.trace ++
              [.hasCollectionCall kb.id, .deleteCollectionCall kb.id] }
        | .ok _ =>
          kbRunMembers env st kb.id files
            [.hasCollectionCall kb.id, .deleteCollectionCall kb.id]

def kbLoop (env : Env) : List KnowledgeBase → KBState → KBState
  | [], st => st
  | kb :: rest, st => kbLoop env rest (kbStep env st kb)

def initKBState : KBState := ⟨0, [], []⟩

/-- reindex_knowledge_bases (reindex_all.py lines 29-107): no admin user
means return (0, []) at once; the Knowledges.get_knowledge_bases() call at
line 50 is outside any try, so an error there propagates out. -/
def reindex_knowledge_bases (env : Env) : Except String KBState :=
  match env.superAdmin with
  | none => .ok initKBState
  | some _ =>
    match env.getKnowledgeBases with
    | .error e => .error e
    | .ok kbs => .ok (kbLoop env kbs initKBState)

structure FolderState where
  success_count : Nat
  failed_files : List FailureRecord
  processed_file_ids : List String
  trace : List Event
deriving DecidableEq, Repr

/-- The try block of the folder sweep's per-reference loop (reindex_all.py
lines 256-303): the try catches get_file_by_id and process_file errors into
the failure list, while a missing file, a contentless file, or an
already-indexed file is passed over silently. -/
def folderTryBody (env : Env) (st1 : FolderState) (fid : String) : FolderState :=
  match env.getFileById fid with
  | .error e =>
    { st1 with failed_files := st1.failed_files ++ [⟨fid, none, e⟩] }
  | .ok none => st1
  | .ok (some file) =>
    if hasContent file = false then st1
    else
      let fc := "file-" ++ file.id
      let check := alreadyIndexedCheck env fc file.id
      if check.1 then { st1 with trace := st1.trace ++ check.2 }
      else
        let evAll :=
          check.2 ++ staleDelete env fc ++ [.processFileCall file.id none]
        match env.processFile file.id none with
        | .ok _ =>
          { st1 with
            success_count := st1.success_count + 1,
            trace := st1.trace ++ evAll }
        | .error e =>
          { st1 with
            failed_files := st1.failed_files ++ [⟨fid, none, e⟩],
            trace := st1.trace ++ evAll }

/-- Body of the folder sweep's per-reference loop (reindex_all.py lines
246-303): non-file refs and falsy or already-seen ids are passed over; the
id is added to the dedup set before the try block runs. -/
def folderRefStep (env : Env) (st : FolderState) (ref : FolderRef) : FolderState :=
  if ref.type ≠ some "file" then st
  else
    match ref.id with
    | none => st
    | some fid =>
      if fid = "" ∨ fid ∈ st.processed_file_ids then st
      else
        folderTryBody env
          { st with processed_file_ids := st.processed_file_ids ++ [fid] } fid

def folderRefs (f : FolderRec) : List FolderRef :=
  match f.data with
  | none => []
  | some d =>
    match d.files with
    | none => []
    | some l => l

def folderRefLoop (env : Env) : List FolderRef → FolderState → FolderState
  | [], st => st
  | r :: rest, st => folderRefLoop env rest (folderRefStep env st r)

def folderLoop (env : Env) : List FolderRec → FolderState → FolderState
  | [], st => st
  | f :: rest, st => folderLoop env rest (folderRefLoop env (folderRefs f) st)

/-- Per-user loop of the folder sweep: Folders.get_folders_by_user_id at
line 231 is outside any try, so an error there propagates out of the sweep. -/
def userLoop (env : Env) : List UserRec → FolderState → Except String FolderState
  | [], st => .ok st
  | u :: rest, st =>
    match env.getFoldersByUser u.id with
    | .error e => .error e
    | .ok folders => userLoop env rest (folderLoop env folders st)

def initFolderState : FolderState := ⟨0, [], [], []⟩

/-- reindex_folder_files (reindex_all.py lines 198-306). -/
def reindex_folder_files (env : Env) : Except String FolderState :=
  match env.superAdmin with
  | none => .ok initFolderState
  | some _ =>
    match env.getUsers with
    | .error e => .error e
    | .ok users => userLoop env users initFolderState

structure RunResult where
  exitCode : Nat
  kb : Option KBState
  standalone : Option StandaloneState
  folder : Option FolderState
deriving DecidableEq, Repr

/-- The main orchestrator (reindex_all.py lines 309-377): exit 1 when the app
state lacks EMBEDDING_FUNCTION or when an exception escapes a sweep; run
the three sweeps in order and exit 0 on completion regardless of per-item
failures. -/
def main (env : Env) : RunResult :=
  if env.appInitialized = false then ⟨1, none, none, none⟩
  else
    match reindex_knowledge_bases env with
    | .error _ => ⟨1, none, none, none⟩
    | .ok kbr =>
      match reindex_standalone_files env with
      | .error _ => ⟨1, some kbr, none, none⟩
      | .ok sfr =>
        match reindex_folder_files env with
        | .error _ => ⟨1, some kbr, some sfr, none⟩
        | .ok ffr => ⟨0, some kbr, some sfr, some ffr⟩

/-- Number of indexing-pipeline invocations for a given file id in a trace. -/
def countProcessCalls (fid : String) : List Event → Nat
  | [] => 0
  | .processFileCall f _ :: rest =>
    (if f = fid then 1 else 0) + countProcessCalls fid rest
  | _ :: rest => countProcessCalls fid rest

/-- Whether an external call returned without raising. -/
def exceptOk {α : Type} : Except String α → Bool
  | .ok _ => true
  | .error _ => false

/-! Concrete test doubles used by the witness theorems. -/

def adminU : UserRec := ⟨"admin", "admin@example.com"⟩

/-- A file with content. -/
def fileA : FileRec := ⟨"f1", "a.txt", some ⟨some "hello"⟩⟩

/-- A file whose data dict is absent. -/
def fileEmpty : FileRec := ⟨"f2", "b.txt", none⟩

/-- A folder reference of type file pointing at f2. -/
def refEmpty : FolderRef := ⟨some "file", some "f2"⟩

/-- Environment where every per-file collection exists and is non-empty. -/
def envIndexed : Env where
  superAdmin := some adminU
  appInitialized := true
  getKnowledgeBases := .ok []
  getFiles := .ok [fileA]
  getUsers := .ok []
  getFoldersByUser := fun _ => .ok []
  getFilesByIds := fun _ => .ok []
  getFileById := fun fid => .ok (some ⟨fid, "b.txt", none⟩)
  hasCollection := fun _ => .ok true
  query := fun _ _ => .ok true
  deleteCollection := fun _ => .ok ()
  processFile := fun _ _ => .ok ()
  deleteKnowledgeById := fun _ => .ok ()

/-- C1: in the standalone-file sweep, a file with content whose per-file
collection exists and already holds a document tagged with the file's id is
skipped: the step only bumps the skip count and emits only the
has_collection and query calls — no delete_collection and no process_file
call happens for it — and the sweep loop then moves on to the rest. -/
theorem standalone_skip_when_already_indexed (env : Env) (st : StandaloneState)
    (f : FileRec) (h1 : hasContent f = true)
    (h2 : env.hasCollection ("file-" ++ f.id) = .ok true)
    (h3 : env.query ("file-" ++ f.id) f.id = .ok true) :
    standaloneStepState env st f =
      { st with
        skipped_count := st.skipped_count + 1,
        trace := st.trace ++ [.hasCollectionCall ("file-" ++ f.id),
          .queryCall ("file-" ++ f.id) f.id] }
    ∧ (∀ c, Event.deleteCollectionCall c ∉ (standaloneFileStep env f).2)
    ∧ (∀ fid c, Event.processFileCall fid c ∉ (standaloneFileStep env f).2)
    ∧ (∀ rest, standaloneLoop env (f :: rest) st =
        standaloneLoop env rest (standaloneStepState env st f)) := by
  refine ⟨?_, ?_, ?_, fun rest => rfl⟩ <;>
    simp [standaloneStepState, standaloneFileStep, alreadyIndexedCheck, h1, h2, h3]

/-- Witness for C1 at a concrete environment and file. -/
theorem standalone_skip_when_already_indexed_witness :
    standaloneStepState envIndexed initStandaloneState fileA =
      ⟨0, [], 1, [.hasCollectionCall "file-f1", .queryCall "file-f1" "f1"]⟩ :=
  (standalone_skip_when_already_indexed envIndexed initStandaloneState fileA
    (by decide) rfl rfl).1

/-- C2: a file with no extracted content is never submitted to the indexing
pipeline: the standalone sweep only bumps its skip count (success count and
trace untouched), and the folder sweep passes the file over with no delete
or reindex call (only the dedup set grows). -/
theorem no_content_never_indexed (env : Env) :
    (∀ st f, hasContent f = false →
      standaloneStepState env st f =
        { st with skipped_count := st.skipped_count + 1 })
    ∧ (∀ st ref fid file, ref.type = some "file" → ref.id = some fid →
        fid ≠ "" → fid ∉ st.processed_file_ids →
        env.getFileById fid = .ok (some file) → hasContent file = false →
        folderRefStep env st ref =
          { st with processed_file_ids := st.processed_file_ids ++ [fid] }) := by
  constructor
  · intro st f h
    simp [standaloneStepState, standaloneFileStep, h]
  · intro st ref fid file h1 h2 h3 h4 h5 h6
    simp [folderRefStep, folderTryBody, h1, h2, h3, h4, h5, h6]

/-- Witness for C2: a contentless file is skipped by the standalone step and
passed over by the folder step in a concrete environment. -/
theorem no_content_never_indexed_witness :
    standaloneStepState envIndexed initStandaloneState fileEmpty = ⟨0, [], 1, []⟩ ∧
    folderRefStep envIndexed initFolderState refEmpty = ⟨0, [], ["f2"], []⟩ :=
  ⟨(no_content_never_indexed envIndexed).1 initStandaloneState fileEmpty rfl,
   (no_content_never_indexed envIndexed).2 initFolderState refEmpty "f2"
     ⟨"f2", "b.txt", none⟩ rfl rfl (by decide) (by decide) rfl rfl⟩

/-! Helper lemmas about the knowledge-base member loop. -/

theorem kbMemberLoop_failures_empty_iff (env : Env) (kbId : String)
    (files : List FileRec) :
    (kbMemberLoop env kbId files).1 = [] ↔
      ∀ f ∈ files, exceptOk (env.processFile f.id (some kbId)) = true := by
  induction files with
  | nil => simp [kbMemberLoop]
  | cons f rest ih =>
    cases h : env.processFile f.id (some kbId) with
    | ok v => simp [kbMemberLoop, h, ih, exceptOk]
    | error e => simp [kbMemberLoop, h, exceptOk]

theorem kbMemberLoop_attempts_all (env : Env) (kbId : String)
    (files : List FileRec) :
    ∀ f ∈ files,
      Event.processFileCall f.id (some kbId) ∈ (kbMemberLoop env kbId files).2 := by
  induction files with
  | nil => simp
  | cons g rest ih =>
    intro f hf
    rcases List.mem_cons.mp hf with rfl | hf2
    · cases h : env.processFile f.id (some kbId) <;> simp [kbMemberLoop, h]
    · cases h : env.processFile g.id (some kbId) <;>
        simp [kbMemberLoop, h, ih f hf2]

theorem kbMemberLoop_records_failures (env : Env) (kbId : String)
    (files : List FileRec) :
    ∀ f ∈ files, ∀ e, env.processFile f.id (some kbId) = .error e →
      (⟨f.id, none, e⟩ : FailureRecord) ∈ (kbMemberLoop env kbId files).1 := by
  induction files with
  | nil => simp
  | cons g rest ih =>
    intro f hf e he
    rcases List.mem_cons.mp hf with rfl | hf2
    · simp [kbMemberLoop, he]
    · cases h : env.processFile g.id (some kbId) <;>
        simp [kbMemberLoop, h, ih f hf2 e he]

/-- A knowledge base with invalid data. -/
def kbBad : KnowledgeBase := ⟨"kb1", "Bad KB", none⟩

/-- Environment whose catalog holds one invalid knowledge base and whose
delete_knowledge_by_id call raises. -/
def envKBDeleteFails : Env :=
  { envIndexed with
    getKnowledgeBases := .ok [kbBad],
    deleteKnowledgeById := fun _ => .error "db down" }

/-- C4 counterexample: when the catalog delete itself raises, a knowledge
base with absent data is neither deleted nor recorded in the deleted list —
the sweep returns an empty deleted list even though kbBad has no data. -/
theorem kb_invalid_delete_error_not_recorded :
    kbBad.data = none ∧
    reindex_knowledge_bases envKBDeleteFails =
      .ok ⟨0, [], [.deleteKnowledgeCall "kb1"]⟩ :=
  ⟨rfl, rfl⟩

/-- C4 (amended): a knowledge base with absent or malformed data has a
catalog delete invoked and never contributes to the success count; it is
recorded in the deleted list whenever the catalog delete succeeds; no member
file of it is processed; the sweep then moves to the next knowledge base. -/
theorem kb_invalid_deleted_never_successful (env : Env) (st : KBState)
    (kb : KnowledgeBase) (h : kb.data = none) :
    (kbStep env st kb).success_count = st.success_count
    ∧ (kbStep env st kb).trace = st.trace ++ [.deleteKnowledgeCall kb.id]
    ∧ (env.deleteKnowledgeById kb.id = .ok () →
        (kbStep env st kb).deleted_knowledge_bases =
          st.deleted_knowledge_bases ++ [kb.id])
    ∧ (∀ rest, kbLoop env (kb :: rest) st = kbLoop env rest (kbStep env st kb)) := by
  refine ⟨?_, ?_, ?_, fun rest => rfl⟩ <;>
    cases hd : env.deleteKnowledgeById kb.id <;> simp [kbStep, h, hd]

/-- Environment whose catalog holds one invalid knowledge base and whose
catalog delete succeeds. -/
def envKBDeleteOk : Env := { envIndexed with getKnowledgeBases := .ok [kbBad] }

/-- Witness for the amended C4 at a concrete environment. -/
theorem kb_invalid_deleted_never_successful_witness :
    (kbStep envKBDeleteOk initKBState kbBad).success_count = 0 ∧
    (kbStep envKBDeleteOk initKBState kbBad).deleted_knowledge_bases = ["kb1"] :=
  ⟨(kb_invalid_deleted_never_successful envKBDeleteOk initKBState kbBad rfl).1,
   (kb_invalid_deleted_never_successful envKBDeleteOk initKBState kbBad
     rfl).2.2.1 rfl⟩

/-- C5: a knowledge base that reaches its member loop is counted successful
exactly when every member file indexes without error; every member file is
attempted even when an earlier one fails, each failing member is recorded
with its id and error text, and the sweep continues with the remaining
knowledge bases. -/
theorem kb_success_iff_all_members_ok (env : Env) (st : KBState)
    (kb : KnowledgeBase) (d : KBData) (files : List FileRec)
    (h1 : kb.data = some d)
    (h2 : env.getFilesByIds d.file_ids = .ok files)
    (h3 : env.hasCollection kb.id = .ok false ∨
      (env.hasCollection kb.id = .ok true ∧
        env.deleteCollection kb.id = .ok ())) :
    ((kbStep env st kb).success_count = st.success_count + 1 ↔
      ∀ f ∈ files, exceptOk (env.processFile f.id (some kb.id)) = true)
    ∧ (∀ f ∈ files,
        Event.processFileCall f.id (some kb.id) ∈ (kbStep env st kb).trace)
    ∧ (∀ f ∈ files, ∀ e, env.processFile f.id (some kb.id) = .error e →
        (⟨f.id, none, e⟩ : FailureRecord) ∈ (kbMemberLoop env kb.id files).1)
    ∧ (∀ rest, kbLoop env (kb :: rest) st = kbLoop env rest (kbStep env st kb)) := by
  obtain ⟨pre, hstep⟩ :
      ∃ pre, kbStep env st kb = kbRunMembers env st kb.id files pre := by
    rcases h3 with h3 | ⟨h3, h4⟩
    · exact ⟨[.hasCollectionCall kb.id], by simp [kbStep, h1, h2, h3]⟩
    · exact ⟨[.hasCollectionCall kb.id, .deleteCollectionCall kb.id],
        by simp [kbStep, h1, h2, h3, h4]⟩
  refine ⟨?_, ?_, kbMemberLoop_records_failures env kb.id files, fun rest => rfl⟩
  · rw [hstep]
    cases hl : (kbMemberLoop env kb.id files).1 with
    | nil =>
      have hall := (kbMemberLoop_failures_empty_iff env kb.id files).mp hl
      simpa [kbRunMembers, hl] using hall
    | cons a t =>
      have hne :
          ¬ ∀ f ∈ files, exceptOk (env.processFile f.id (some kb.id)) = true := by
        intro hall
        have hnil := (kbMemberLoop_failures_empty_iff env kb.id files).mpr hall
        rw [hl] at hnil
        exact List.cons_ne_nil a t hnil
      simp [kbRunMembers, hl, hne]
  · intro f hf
    rw [hstep]
    simp [kbRunMembers, kbMemberLoop_attempts_all env kb.id files f hf]

/-- A knowledge base with well-formed data listing one member file. -/
def kbGood : KnowledgeBase := ⟨"kb2", "Good KB", some ⟨["f1"]⟩⟩

/-- Environment whose catalog holds one valid knowledge base whose member
list resolves to fileA, with no existing collection. -/
def envKBGood : Env :=
  { envIndexed with
    getKnowledgeBases := .ok [kbGood],
    getFilesByIds := fun _ => .ok [fileA] }

/-- Witness for C5: with its single member file indexing cleanly, the
knowledge base is counted successful. -/
theorem kb_success_iff_all_members_ok_witness :
    (kbStep envKBGood initKBState kbGood).success_count = 1 :=
  (kb_success_iff_all_members_ok envKBGood initKBState kbGood ⟨["f1"]⟩ [fileA]
    rfl rfl (Or.inr ⟨rfl, rfl⟩)).1.mpr (by decide)

/-- C6: when the stale-collection delete keyed by the knowledge-base id
raises, that knowledge base's iteration is aborted: the state is unchanged
except for the has_collection and delete_collection events, so no member
file is submitted to the pipeline and the success count does not move, and
the sweep loop continues with the next knowledge base. -/
theorem kb_collection_delete_error_aborts_iteration (env : Env) (st : KBState)
    (kb : KnowledgeBase) (d : KBData) (files : List FileRec) (e : String)
    (h1 : kb.data = some d)
    (h2 : env.getFilesByIds d.file_ids = .ok files)
    (h3 : env.hasCollection kb.id = .ok true)
    (h4 : env.deleteCollection kb.id = .error e) :
    kbStep env st kb =
      { st with
        trace := st.trace ++
          [.hasCollectionCall kb.id, .deleteCollectionCall kb.id] }
    ∧ (∀ fid c, Event.processFileCall fid c ∈ (kbStep env st kb).trace →
        Event.processFileCall fid c ∈ st.trace)
    ∧ (∀ rest, kbLoop env (kb :: rest) st = kbLoop env rest (kbStep env st kb)) := by
  have h : kbStep env st kb =
      { st with
        trace := st.trace ++
          [.hasCollectionCall kb.id, .deleteCollectionCall kb.id] } := by
    simp [kbStep, h1, h2, h3, h4]
  refine ⟨h, ?_, fun rest => rfl⟩
  intro fid c hm
  rw [h] at hm
  simpa using hm

/-- Environment like envKBGood but whose delete_collection call raises. -/
def envKBDelErr : Env :=
  { envKBGood with deleteCollection := fun _ => .error "boom" }

/-- Witness for C6 at a concrete environment. -/
theorem kb_collection_delete_error_aborts_iteration_witness :
    kbStep envKBDelErr initKBState kbGood =
      ⟨0, [], [.hasCollectionCall "kb2", .deleteCollectionCall "kb2"]⟩ :=
  (kb_collection_delete_error_aborts_iteration envKBDelErr initKBState kbGood
    ⟨["f1"]⟩ [fileA] "boom" rfl rfl rfl rfl).1

/-! Shared lemmas about sweeps returning normally when enumeration calls
succeed, and about the exit code of main. -/

theorem userLoop_ok (env : Env) :
    ∀ us : List UserRec, ∀ st : FolderState,
      (∀ u ∈ us, exceptOk (env.getFoldersByUser u.id) = true) →
      ∃ r, userLoop env us st = .ok r := by
  intro us
  induction us with
  | nil => exact fun st _ => ⟨st, rfl⟩
  | cons u rest ih =>
    intro st hall
    rcases hf : env.getFoldersByUser u.id with e | folders
    · have := hall u (by simp)
      rw [hf] at this
      simp [exceptOk] at this
    · obtain ⟨r, hr⟩ :=
        ih (folderLoop env folders st) (fun v hv => hall v (by simp [hv]))
      exact ⟨r, by simp [userLoop, hf, hr]⟩

theorem kb_sweep_ok (env : Env) (kbs : List KnowledgeBase)
    (h : env.getKnowledgeBases = .ok kbs) :
    ∃ r, reindex_knowledge_bases env = .ok r := by
  cases hsa : env.superAdmin with
  | none => exact ⟨initKBState, by simp [reindex_knowledge_bases, hsa]⟩
  | some u =>
    exact ⟨kbLoop env kbs initKBState, by simp [reindex_knowledge_bases, hsa, h]⟩

theorem standalone_sweep_ok (env : Env) (fs : List FileRec)
    (h : env.getFiles = .ok fs) :
    ∃ r, reindex_standalone_files env = .ok r := by
  cases hsa : env.superAdmin with
  | none => exact ⟨initStandaloneState, by simp [reindex_standalone_files, hsa]⟩
  | some u =>
    exact ⟨standaloneLoop env fs initStandaloneState,
      by simp [reindex_standalone_files, hsa, h]⟩

theorem folder_sweep_ok (env : Env) (us : List UserRec)
    (h : env.getUsers = .ok us)
    (hall : ∀ u ∈ us, exceptOk (env.getFoldersByUser u.id) = true) :
    ∃ r, reindex_folder_files env = .ok r := by
  cases hsa : env.superAdmin with
  | none => exact ⟨initFolderState, by simp [reindex_folder_files, hsa]⟩
  | some u =>
    obtain ⟨r, hr⟩ := userLoop_ok env us initFolderState hall
    exact ⟨r, by simp [reindex_folder_files, hsa, h, hr]⟩

theorem main_exit_zero (env : Env) (h0 : env.appInitialized = true)
    (h1 : ∃ kbs, env.getKnowledgeBases = .ok kbs)
    (h2 : ∃ fs, env.getFiles = .ok fs)
    (h3 : ∃ us, env.getUsers = .ok us ∧
      ∀ u ∈ us, exceptOk (env.getFoldersByUser u.id) = true) :
    (main env).exitCode = 0 := by
  obtain ⟨kbs, h1⟩ := h1
  obtain ⟨fs, h2⟩ := h2
  obtain ⟨us, h3, h4⟩ := h3
  obtain ⟨rk, hrk⟩ := kb_sweep_ok env kbs h1
  obtain ⟨rs, hrs⟩ := standalone_sweep_ok env fs h2
  obtain ⟨rf, hrf⟩ := folder_sweep_ok env us h3 h4
  simp [main, h0, hrk, hrs, hrf]

/-- Environment with no resolvable administrative identity. -/
def envNoAdmin : Env := { envIndexed with superAdmin := none }

/-- C7 counterexample: with no admin user resolvable, the run does not
terminate with a non-zero exit code — each sweep returns (0, []) and main
completes with exit code 0. -/
theorem no_admin_exit_zero :
    envNoAdmin.superAdmin = none ∧ (main envNoAdmin).exitCode = 0 :=
  ⟨rfl, rfl⟩

/-- C7 (amended): if no administrative identity can be resolved, no sweep
processes any entity — each sweep returns its empty initial state with an
empty call trace — and the run completes with exit code 0 rather than
aborting with a non-zero exit. -/
theorem no_admin_sweeps_empty (env : Env)
    (h1 : env.superAdmin = none) (h2 : env.appInitialized = true) :
    reindex_knowledge_bases env = .ok initKBState
    ∧ reindex_standalone_files env = .ok initStandaloneState
    ∧ reindex_folder_files env = .ok initFolderState
    ∧ main env = ⟨0, some initKBState, some initStandaloneState,
        some initFolderState⟩ := by
  refine ⟨?_, ?_, ?_, ?_⟩ <;>
    simp [reindex_knowledge_bases, reindex_standalone_files,
      reindex_folder_files, main, h1, h2]

/-- Witness for the amended C7 at a concrete environment. -/
theorem no_admin_sweeps_empty_witness :
    main envNoAdmin = ⟨0, some initKBState, some initStandaloneState,
      some initFolderState⟩ :=
  (no_admin_sweeps_empty envNoAdmin rfl rfl).2.2.2

/-- Environment whose standalone-file enumeration call raises. -/
def envEnumFails : Env := { envIndexed with getFiles := .error "boom" }

/-- C8 counterexample: an error raised while enumerating files
(Files.get_files at line 130 is outside every try block) propagates out of
reindex_standalone_files instead of being returned as a failure list. -/
theorem standalone_sweep_raises_on_enumeration_error :
    reindex_standalone_files envEnumFails = .error "boom" := rfl

/-- C8 (amended): whenever the enumeration calls of a sweep succeed, the
sweep returns normally with its accumulated state — per-entity errors never
propagate — but an error from an enumeration call itself (listing knowledge
bases, files, users, or one user's folders) propagates out of the sweep
function and is only caught by main. -/
theorem sweeps_return_when_enumeration_ok (env : Env) :
    (∀ kbs, env.getKnowledgeBases = .ok kbs →
      ∃ r, reindex_knowledge_bases env = .ok r)
    ∧ (∀ fs, env.getFiles = .ok fs →
        ∃ r, reindex_standalone_files env = .ok r)
    ∧ (∀ us, env.getUsers = .ok us →
        (∀ u ∈ us, exceptOk (env.getFoldersByUser u.id) = true) →
        ∃ r, reindex_folder_files env = .ok r) :=
  ⟨fun kbs h => kb_sweep_ok env kbs h,
   fun fs h => standalone_sweep_ok env fs h,
   fun us h hall => folder_sweep_ok env us h hall⟩

/-- Witness for the amended C8: in a concrete environment whose enumeration
calls all succeed, the standalone sweep returns normally. -/
theorem sweeps_return_when_enumeration_ok_witness :
    reindex_standalone_files envIndexed =
      .ok ⟨0, [], 1, [.hasCollectionCall "file-f1", .queryCall "file-f1" "f1"]⟩ := by
  obtain ⟨r, hr⟩ := (sweeps_return_when_enumeration_ok envIndexed).2.1 [fileA] rfl
  have : r = ⟨0, [], 1,
      [.hasCollectionCall "file-f1", .queryCall "file-f1" "f1"]⟩ := by
    have hr2 : reindex_standalone_files envIndexed =
        .ok ⟨0, [], 1,
          [.hasCollectionCall "file-f1", .queryCall "file-f1" "f1"]⟩ := rfl
    rw [hr] at hr2
    exact (Except.ok.injEq _ _).mp hr2
  rw [← this]
  exact hr

/-! Helper lemmas about the standalone sweep loop. -/

theorem standaloneLoop_append (env : Env) :
    ∀ l1 l2 : List FileRec, ∀ st,
      standaloneLoop env (l1 ++ l2) st =
        standaloneLoop env l2 (standaloneLoop env l1 st) := by
  intro l1
  induction l1 with
  | nil => intro l2 st; rfl
  | cons f rest ih => intro l2 st; simp [standaloneLoop, ih]

theorem standaloneStepState_failed_mono (env : Env) (st : StandaloneState)
    (f : FileRec) :
    ∀ x ∈ st.failed_files, x ∈ (standaloneStepState env st f).failed_files := by
  intro x hx
  cases h : standaloneFileStep env f with
  | mk o evs => cases o <;> simp [standaloneStepState, h, hx]

theorem standaloneLoop_failed_mono (env : Env) :
    ∀ fs : List FileRec, ∀ st,
      ∀ x ∈ st.failed_files, x ∈ (standaloneLoop env fs st).failed_files := by
  intro fs
  induction fs with
  | nil => intro st x hx; exact hx
  | cons f rest ih =>
    intro st x hx
    exact ih (standaloneStepState env st f) x
      (standaloneStepState_failed_mono env st f x hx)

/-- Failure list of a standalone sweep that returned normally. -/
def standaloneFailuresOf (x : Except String StandaloneState) :
    List FailureRecord :=
  match x with
  | .ok r => r.failed_files
  | .error _ => []

/-- C9: when the indexing pipeline raises for one standalone file, a failure
record with that file's id, filename and error text ends up in the sweep's
failure list, the loop still runs every subsequent file, and main still
completes with exit code 0. -/
theorem standalone_failure_recorded_and_run_continues (env : Env)
    (u : UserRec) (kbs : List KnowledgeBase) (files1 files2 : List FileRec)
    (f : FileRec) (us : List UserRec) (e : String)
    (h0 : env.appInitialized = true)
    (h1 : env.superAdmin = some u)
    (h2 : env.getKnowledgeBases = .ok kbs)
    (h3 : env.getFiles = .ok (files1 ++ f :: files2))
    (h4 : env.getUsers = .ok us)
    (h5 : ∀ v ∈ us, exceptOk (env.getFoldersByUser v.id) = true)
    (h6 : hasContent f = true)
    (h7 : env.hasCollection ("file-" ++ f.id) = .ok false)
    (h8 : env.processFile f.id none = .error e) :
    (⟨f.id, some f.filename, e⟩ : FailureRecord) ∈
      standaloneFailuresOf (reindex_standalone_files env)
    ∧ (∀ st, standaloneLoop env (files1 ++ f :: files2) st =
        standaloneLoop env files2
          (standaloneStepState env (standaloneLoop env files1 st) f))
    ∧ (main env).exitCode = 0 := by
  have hstep : ∀ st, standaloneStepState env st f =
      { st with
        failed_files := st.failed_files ++ [⟨f.id, some f.filename, e⟩],
        trace := st.trace ++
          [.hasCollectionCall ("file-" ++ f.id),
            .hasCollectionCall ("file-" ++ f.id),
            .processFileCall f.id none] } := by
    intro st
    simp [standaloneStepState, standaloneFileStep, alreadyIndexedCheck,
      staleDelete, h6, h7, h8]
  refine ⟨?_, ?_, ?_⟩
  · have hres : reindex_standalone_files env =
        .ok (standaloneLoop env (files1 ++ f :: files2) initStandaloneState) := by
      simp [reindex_standalone_files, h1, h3]
    rw [hres]
    show _ ∈ (standaloneLoop env (files1 ++ f :: files2)
      initStandaloneState).failed_files
    rw [standaloneLoop_append env files1 (f :: files2) initStandaloneState]
    show _ ∈ (standaloneLoop env files2
      (standaloneStepState env
        (standaloneLoop env files1 initStandaloneState) f)).failed_files
    apply standaloneLoop_failed_mono
    rw [hstep]
    simp
  · intro st
    rw [standaloneLoop_append env files1 (f :: files2) st]
    rfl
  · exact main_exit_zero env h0 ⟨kbs, h2⟩ ⟨_, h3⟩ ⟨us, h4, h5⟩

/-- A standalone file for which the pipeline raises. -/
def fileF7 : FileRec := ⟨"f7", "g.txt", some ⟨some "text"⟩⟩

/-- Environment where the indexing pipeline raises for every file. -/
def envF7 : Env :=
  { envIndexed with
    getFiles := .ok [fileF7],
    hasCollection := fun _ => .ok false,
    processFile := fun _ _ => .error "pipeline down" }

/-- Witness for C9 at a concrete environment. -/
theorem standalone_failure_recorded_and_run_continues_witness :
    (⟨"f7", some "g.txt", "pipeline down"⟩ : FailureRecord) ∈
      standaloneFailuresOf (reindex_standalone_files envF7)
    ∧ (main envF7).exitCode = 0 :=
  ⟨(standalone_failure_recorded_and_run_continues envF7 adminU [] [] []
      fileF7 [] "pipeline down" rfl rfl rfl rfl rfl (by simp) (by decide)
      rfl rfl).1,
   (standalone_failure_recorded_and_run_continues envF7 adminU [] [] []
      fileF7 [] "pipeline down" rfl rfl rfl rfl rfl (by simp) (by decide)
      rfl rfl).2.2⟩

/-- C10: in both file sweeps, when the already-indexed existence check itself
raises (has_collection fails, or the collection exists and query fails), the
exception is swallowed and the file is treated as not yet indexed: the check
reports no skip, the step goes on to invoke the indexing pipeline for the
file, the skip count does not move, and when the pipeline then succeeds no
failure record is produced — the check error alone never yields a failure
or a skip. -/
theorem check_error_treated_as_not_indexed (env : Env) :
    (∀ st f e, hasContent f = true →
      (env.hasCollection ("file-" ++ f.id) = .error e ∨
        (env.hasCollection ("file-" ++ f.id) = .ok true ∧
          env.query ("file-" ++ f.id) f.id = .error e)) →
      (alreadyIndexedCheck env ("file-" ++ f.id) f.id).1 = false
      ∧ Event.processFileCall f.id none ∈ (standaloneStepState env st f).trace
      ∧ (standaloneStepState env st f).skipped_count = st.skipped_count
      ∧ (∀ v : Unit, env.processFile f.id none = .ok v →
          (standaloneStepState env st f).failed_files = st.failed_files ∧
          (standaloneStepState env st f).success_count = st.success_count + 1))
    ∧ (∀ st ref fid file e, ref.type = some "file" → ref.id = some fid →
        fid ≠ "" → fid ∉ st.processed_file_ids →
        env.getFileById fid = .ok (some file) → hasContent file = true →
        (env.hasCollection ("file-" ++ file.id) = .error e ∨
          (env.hasCollection ("file-" ++ file.id) = .ok true ∧
            env.query ("file-" ++ file.id) file.id = .error e)) →
        Event.processFileCall file.id none ∈ (folderRefStep env st ref).trace
        ∧ (∀ v : Unit, env.processFile file.id none = .ok v →
            (folderRefStep env st ref).failed_files = st.failed_files ∧
            (folderRefStep env st ref).success_count = st.success_count + 1)) := by
  have hcheck : ∀ fc fid e,
      (env.hasCollection fc = .error e ∨
        (env.hasCollection fc = .ok true ∧ env.query fc fid = .error e)) →
      (alreadyIndexedCheck env fc fid).1 = false := by
    intro fc fid e h
    rcases h with h | ⟨h, hq⟩
    · simp [alreadyIndexedCheck, h]
    · simp [alreadyIndexedCheck, h, hq]
  constructor
  · intro st f e h6 hd
    have hc := hcheck ("file-" ++ f.id) f.id e hd
    refine ⟨hc, ?_, ?_, ?_⟩ <;>
      cases hp : env.processFile f.id none <;>
        simp [standaloneStepState, standaloneFileStep, h6, hc, hp]
  · intro st ref fid file e h1 h2 h3 h4 h5 h6 hd
    have hc := hcheck ("file-" ++ file.id) file.id e hd
    refine ⟨?_, ?_⟩ <;>
      cases hp : env.processFile file.id none <;>
        simp [folderRefStep, folderTryBody, h1, h2, h3, h4, h5, h6, hc, hp]

/-- A folder reference of type file pointing at g1. -/
def refG1 : FolderRef := ⟨some "file", some "g1"⟩

/-- Environment whose has_collection call always raises and whose catalog
resolves every file id to a file with content. -/
def envCheckFails : Env :=
  { envIndexed with
    hasCollection := fun _ => .error "vector db down",
    getFileById := fun fid => .ok (some ⟨fid, "c.txt", some ⟨some "text"⟩⟩) }

/-- Witness for C10 at a concrete environment where has_collection raises. -/
theorem check_error_treated_as_not_indexed_witness :
    (standaloneStepState envCheckFails initStandaloneState fileA).success_count
      = 1
    ∧ Event.processFileCall "g1" none ∈
        (folderRefStep envCheckFails initFolderState refG1).trace :=
  ⟨((((check_error_treated_as_not_indexed envCheckFails).1 initStandaloneState
      fileA "vector db down" (by decide) (Or.inl rfl)).2.2.2) () rfl).2,
   (((check_error_treated_as_not_indexed envCheckFails).2 initFolderState refG1
      "g1" ⟨"g1", "c.txt", some ⟨some "text"⟩⟩ "vector db down" rfl rfl
      (by decide) (by decide) rfl (by decide) (Or.inl rfl)).1)⟩

/-! Counting lemmas for indexing-pipeline invocations in a trace. -/

theorem countProcessCalls_append (g : String) (l1 l2 : List Event) :
    countProcessCalls g (l1 ++ l2) =
      countProcessCalls g l1 + countProcessCalls g l2 := by
  induction l1 with
  | nil => simp [countProcessCalls]
  | cons ev rest ih =>
    cases ev <;> simp [countProcessCalls, ih, Nat.add_assoc]

theorem countProcessCalls_check (env : Env) (fc fid g : String) :
    countProcessCalls g (alreadyIndexedCheck env fc fid).2 = 0 := by
  rcases h : env.hasCollection fc with e | b
  · simp [alreadyIndexedCheck, h, countProcessCalls]
  · cases b
    · simp [alreadyIndexedCheck, h, countProcessCalls]
    · rcases hq : env.query fc fid with e2 | b2 <;>
        simp [alreadyIndexedCheck, h, hq, countProcessCalls]

theorem countProcessCalls_staleDelete (env : Env) (fc g : String) :
    countProcessCalls g (staleDelete env fc) = 0 := by
  rcases h : env.hasCollection fc with e | b
  · simp [staleDelete, h, countProcessCalls]
  · cases b <;> simp [staleDelete, h, countProcessCalls]

theorem folderTryBody_processed (env : Env) (st1 : FolderState) (fid : String) :
    (folderTryBody env st1 fid).processed_file_ids = st1.processed_file_ids := by
  rcases h : env.getFileById fid with e | of
  · simp [folderTryBody, h]
  · cases of with
    | none => simp [folderTryBody, h]
    | some file =>
      by_cases hc : hasContent file = false
      · simp [folderTryBody, h, hc]
      · by_cases hs : (alreadyIndexedCheck env ("file-" ++ file.id) file.id).1
        · simp [folderTryBody, h, hc, hs]
        · cases hp : env.processFile file.id none <;>
            simp [folderTryBody, h, hc, hs, hp]

/-- One run of the folder try block adds at most one pipeline invocation to
the trace, and only for the reference's own file id (the catalog returns
files under their own id). -/
theorem folderTryBody_count (env : Env)
    (henv : ∀ g file, env.getFileById g = .ok (some file) → file.id = g)
    (st1 : FolderState) (fid g : String) :
    countProcessCalls g (folderTryBody env st1 fid).trace ≤
      countProcessCalls g st1.trace + (if g = fid then 1 else 0) := by
  rcases h : env.getFileById fid with e | of
  · simp [folderTryBody, h]
  · cases of with
    | none => simp [folderTryBody, h]
    | some file =>
      have hid := henv fid file h
      by_cases hcont : hasContent file = false
      · simp [folderTryBody, h, hcont]
      · by_cases hskip : (alreadyIndexedCheck env ("file-" ++ file.id) file.id).1
        · simp [folderTryBody, h, hcont, hskip, countProcessCalls_append,
            countProcessCalls_check]
        · cases hp : env.processFile file.id none <;>
          · simp only [folderTryBody, h, hcont, hskip, hp,
              Bool.false_eq_true, if_false, ite_false, Bool.not_eq_true]
            simp [countProcessCalls_append, countProcessCalls_check,
              countProcessCalls_staleDelete, countProcessCalls, hid]
            rcases eq_or_ne g fid with rfl | hg
            · simp
            · simp [hg, Ne.symm hg]

/-- Invariant of the folder sweep: each file id has at most one pipeline
invocation in the trace, and ids outside the dedup set have none. -/
def NoDupProcess (st : FolderState) : Prop :=
  ∀ g, countProcessCalls g st.trace ≤ 1 ∧
    (g ∉ st.processed_file_ids → countProcessCalls g st.trace = 0)

theorem folderRefStep_noDup (env : Env)
    (henv : ∀ g file, env.getFileById g = .ok (some file) → file.id = g)
    (st : FolderState) (ref : FolderRef) (h : NoDupProcess st) :
    NoDupProcess (folderRefStep env st ref) := by
  rcases ref with ⟨rtype, rid⟩
  by_cases ht : rtype ≠ some "file"
  · simpa [folderRefStep, ht] using h
  · have ht2 : rtype = some "file" := not_not.mp ht
    subst ht2
    cases rid with
    | none => simpa [folderRefStep] using h
    | some fid =>
      by_cases hskip : fid = "" ∨ fid ∈ st.processed_file_ids
      · simpa [folderRefStep, hskip] using h
      · have hstep : folderRefStep env st ⟨some "file", some fid⟩ =
            folderTryBody env
              { st with processed_file_ids :=
                st.processed_file_ids ++ [fid] } fid := by
          simp [folderRefStep, hskip]
        rw [hstep]
        have hfree : fid ∉ st.processed_file_ids := fun hm => hskip (Or.inr hm)
        intro g
        have hcount := folderTryBody_count env henv
          { st with processed_file_ids := st.processed_file_ids ++ [fid] } fid g
        have hproc := folderTryBody_processed env
          { st with processed_file_ids := st.processed_file_ids ++ [fid] } fid
        constructor
        · rcases eq_or_ne g fid with rfl | hg
          · have h0 : countProcessCalls g st.trace = 0 := (h g).2 hfree
            calc countProcessCalls g (folderTryBody env
                  { st with processed_file_ids :=
                    st.processed_file_ids ++ [g] } g).trace
                ≤ countProcessCalls g st.trace + 1 := by simpa using hcount
              _ = 1 := by rw [h0]
          · calc countProcessCalls g (folderTryBody env
                  { st with processed_file_ids :=
                    st.processed_file_ids ++ [fid] } fid).trace
                ≤ countProcessCalls g st.trace + 0 := by simpa [hg] using hcount
              _ ≤ 1 := by simpa using (h g).1
        · intro hgmem
          rw [hproc] at hgmem
          simp only [List.mem_append, List.mem_singleton, not_or] at hgmem
          obtain ⟨hg1, hg2⟩ := hgmem
          have h0 : countProcessCalls g st.trace = 0 := (h g).2 hg1
          have hb : countProcessCalls g (folderTryBody env
              { st with processed_file_ids :=
                st.processed_file_ids ++ [fid] } fid).trace ≤ 0 := by
            have := hcount
            simp only [hg2, if_false, ite_false] at this
            simpa [h0] using this
          exact Nat.le_zero.mp hb

theorem folderRefLoop_noDup (env : Env)
    (henv : ∀ g file, env.getFileById g = .ok (some file) → file.id = g) :
    ∀ refs st, NoDupProcess st → NoDupProcess (folderRefLoop env refs st) := by
  intro refs
  induction refs with
  | nil => exact fun st h => h
  | cons r rest ih =>
    intro st h
    exact ih _ (folderRefStep_noDup env henv st r h)

theorem folderLoop_noDup (env : Env)
    (henv : ∀ g file, env.getFileById g = .ok (some file) → file.id = g) :
    ∀ fls st, NoDupProcess st → NoDupProcess (folderLoop env fls st) := by
  intro fls
  induction fls with
  | nil => exact fun st h => h
  | cons fl rest ih =>
    intro st h
    exact ih _ (folderRefLoop_noDup env henv (folderRefs fl) st h)

theorem userLoop_noDup (env : Env)
    (henv : ∀ g file, env.getFileById g = .ok (some file) → file.id = g) :
    ∀ us st r, userLoop env us st = .ok r → NoDupProcess st → NoDupProcess r := by
  intro us
  induction us with
  | nil =>
    intro st r hr h
    injection hr with h'
    rw [← h']
    exact h
  | cons u rest ih =>
    intro st r hr h
    simp only [userLoop] at hr
    rcases hf : env.getFoldersByUser u.id with e | folders
    · rw [hf] at hr
      simp at hr
    · rw [hf] at hr
      exact ih _ r hr (folderLoop_noDup env henv folders st h)

/-- C3: over one whole folder-sweep invocation, the indexing pipeline is
invoked at most once per file id, however many folders (of however many
users) reference it — deduplication is by file id over the entire sweep. -/
theorem folder_sweep_dedup_by_id (env : Env)
    (henv : ∀ fid file, env.getFileById fid = .ok (some file) → file.id = fid)
    (r : FolderState) (hr : reindex_folder_files env = .ok r) :
    ∀ fid, countProcessCalls fid r.trace ≤ 1 := by
  intro fid
  have hinit : NoDupProcess initFolderState := fun g =>
    ⟨by simp [initFolderState, countProcessCalls], fun _ => rfl⟩
  unfold reindex_folder_files at hr
  rcases hsa : env.superAdmin with _ | u
  · rw [hsa] at hr
    injection hr with h'
    rw [← h']
    exact (hinit fid).1
  · rw [hsa] at hr
    rcases hu : env.getUsers with e | us
    · rw [hu] at hr
      simp at hr
    · rw [hu] at hr
      exact (userLoop_noDup env henv us initFolderState r hr hinit fid).1

/-- A folder whose data lists one file reference to g1. -/
def folderWithG1 : FolderRec := ⟨"folder", some ⟨some [refG1]⟩⟩

/-- Environment with one user owning two folders that both reference file
g1; the catalog resolves every file id to a file with content under the
same id. -/
def envTwoFolders : Env :=
  { envIndexed with
    getUsers := .ok [adminU],
    getFoldersByUser := fun _ => .ok [folderWithG1, folderWithG1],
    getFileById := fun fid => .ok (some ⟨fid, "c.txt", some ⟨some "text"⟩⟩),
    hasCollection := fun _ => .ok false }

theorem envTwoFolders_consistent :
    ∀ fid file, envTwoFolders.getFileById fid = .ok (some file) →
      file.id = fid := by
  intro fid file h
  have h1 : some (⟨fid, "c.txt", some ⟨some "text"⟩⟩ : FileRec) = some file := by
    injection h
  injection h1 with h2
  rw [← h2]

/-- Witness for C3: with two folders both referencing g1, the sweep's trace
holds at most one pipeline invocation for g1. -/
theorem folder_sweep_dedup_by_id_witness :
    countProcessCalls "g1"
      (FolderState.trace ⟨1, [], ["g1"],
        [.hasCollectionCall "file-g1", .hasCollectionCall "file-g1",
          .processFileCall "g1" none]⟩) ≤ 1 :=
  folder_sweep_dedup_by_id envTwoFolders envTwoFolders_consistent
    ⟨1, [], ["g1"],
      [.hasCollectionCall "file-g1", .hasCollectionCall "file-g1",
        .processFileCall "g1" none]⟩ rfl "g1"

end ReindexAll
